import Mathlib

/-!
Verification of the Metaweb client session logic of `src/Python/metaweb.py`.

JSON values are embedded as `JVal`; Python dicts as association lists with
first-occurrence lookup and in-place replacement on assignment, which agrees
with Python dict semantics on the unique-key dictionaries the code builds.
The HTTP transport and the JSON (de)serialisation are external libraries and
are abstracted: a server is a function from the request envelope to the
parsed response envelope (`results` consumes a list of scripted responses,
one per request), and `simplejson.loads` is a `String → Option JVal` oracle.
Python exceptions raised by the embedded code are an explicit `MWError`.
-/

/-- A JSON value, as obtained from parsing a Metaweb response body. -/
inductive JVal where
  | null : JVal
  | bool : Bool → JVal
  | num : Int → JVal
  | str : String → JVal
  | arr : List JVal → JVal
  | obj : List (String × JVal) → JVal


/-- First-occurrence lookup in an association list (Python `d[k]` / `k in d`). -/
def alistLookup {α : Type} : List (String × α) → String → Option α
  | [], _ => none
  | (k1, v1) :: rest, k => if k1 = k then some v1 else alistLookup rest k

/-- Python dict assignment `d[k] = v`: replace the first binding of `k` in
place, otherwise append a new binding at the end. -/
def dictInsert : List (String × JVal) → String → JVal → List (String × JVal)
  | [], k, v => [(k, v)]
  | (k1, v1) :: rest, k, v =>
    if k1 = k then (k, v) :: rest else (k1, v1) :: dictInsert rest k v

/-- Python `d.update(u)`: assign every binding of `u` into `d` in order. -/
def dictUpdate (d u : List (String × JVal)) : List (String × JVal) :=
  u.foldl (fun acc kv => dictInsert acc kv.1 kv.2) d

/-- Python subscript `v[k]` on a parsed JSON value: only objects have keys. -/
def JVal.lookup : JVal → String → Option JVal
  | .obj kvs, k => alistLookup kvs k
  | _, _ => none

/-- Python truthiness of a parsed JSON value (used by `while cursor`). -/
def truthy : JVal → Bool
  | .null => false
  | .bool b => b
  | .num n => n != 0
  | .str s => s != ""
  | .arr xs => !xs.isEmpty
  | .obj kvs => !kvs.isEmpty

/-- Path to the mqlread service (metaweb.py line 38). -/
def READ : String := "/api/service/mqlread"

/-- Path to the search service (line 39). -/
def SEARCH : String := "/api/service/search"

/-- Path to the download service (line 40). -/
def DOWNLOAD : String := "/api/trans/raw"

/-- Path to the document blurb service (line 41). -/
def BLURB : String := "/api/trans/blurb"

/-- Path to the image thumbnail service (line 42). -/
def THUMB : String := "/api/trans/image_thumb"

/-- Path to the login service (line 45). -/
def LOGIN : String := "/api/account/login"

/-- Path to the mqlwrite service (line 46). -/
def WRITE : String := "/api/service/mqlwrite"

/-- Path to the upload service (line 47). -/
def UPLOAD : String := "/api/service/upload"

/-- Path to the touch service (line 48). -/
def TOUCH : String := "/api/service/touch"

/-- Code returned by Metaweb services on success (line 51). -/
def OK : String := "/api/status/ok"

/-- The module-level string constants of metaweb.py, as a name-resolution
environment: Python resolves `READ`, `THUMBNAIL`, ... against the module's
globals at call time.  Note that the name `THUMBNAIL` used by
`Session.thumbnailURL` (line 280) is absent; only `THUMB` is defined. -/
def serviceConstants : List (String × String) :=
  [("READ", READ), ("SEARCH", SEARCH), ("DOWNLOAD", DOWNLOAD), ("BLURB", BLURB),
   ("THUMB", THUMB), ("LOGIN", LOGIN), ("WRITE", WRITE), ("UPLOAD", UPLOAD),
   ("TOUCH", TOUCH), ("OK", OK)]

/-- Resolve a module-level service-constant name (Python LOAD_GLOBAL). -/
def resolveServiceConstant (n : String) : Option String :=
  alistLookup serviceConstants n

/-- The synthetic failure envelope built by `InternalServiceError.__init__`
(lines 428-433). -/
def internalDetails (body : String) : JVal :=
  .obj [("code", .str "Internal service error"),
        ("messages", .arr [.obj [("code", .str "Unparseable response"),
                                 ("message", .str body)]])]

/-- Exceptions the embedded code can raise.  `serviceError` and
`internalServiceError` correspond to the module's `ServiceError` and its
subclass `InternalServiceError`; the remaining constructors stand for the
Python-level `KeyError` / `IndexError` / `TypeError` / `NameError` that dict
subscripts, list indexing, string concatenation and name resolution raise on
ill-formed data. -/
inductive MWError where
  | serviceError (url : String) (details : JVal)
  | internalServiceError (url : String) (rawBody : String)
  | keyError (key : String)
  | indexError
  | typeError
  | nameError (name : String)


/-- The `details` attribute of a raised ServiceError: the failure envelope
(for `InternalServiceError`, the synthetic envelope built from the raw body). -/
def MWError.details : MWError → Option JVal
  | .serviceError _ d => some d
  | .internalServiceError _ body => some (internalDetails body)
  | _ => none

/-- Python comparison `code == OK` where `code` is a parsed JSON value and
`OK` the success-string constant. -/
def isOK : JVal → Bool
  | .str s => s == OK
  | _ => false

/-- `Session._check` (lines 375-380): raise `ServiceError(lasturl, response)`
unless the envelope's `code` equals `OK`; return the envelope otherwise. -/
def Session.check (lasturl : String) (response : JVal) : Except MWError JVal :=
  match response.lookup "code" with
  | none => .error (.keyError "code")
  | some c => if isOK c then .ok response else .error (.serviceError lasturl response)

/-- `Session._getopts` (lines 287-293): copy the listed keys that exist in
the session options, then update with the per-call options. -/
def Session.getopts (sessionOptions : List (String × JVal)) (keys : List String)
    (localOptions : List (String × JVal)) : List (String × JVal) :=
  dictUpdate (keys.filterMap fun k => (alistLookup sessionOptions k).map fun v => (k, v))
    localOptions

/-- The envelope option keys recognised by `read` and `results`
(lines 119-120 and 166-167). -/
def recognizedReadKeys : List String :=
  ["lang", "as_of_time", "escape", "uniqueness_failure"]

/-- The merged options used by `read` and `results`. -/
def readOptions (sessionOptions options : List (String × JVal)) : List (String × JVal) :=
  Session.getopts sessionOptions recognizedReadKeys options

/-- The query-slot name `'q%d' % i` (line 129). -/
def qKey (i : Nat) : String := "q" ++ toString i

/-- An inner request envelope: `{'query': q}` updated with the merged
options (lines 127-128, also the envelope of `results`, lines 170-171). -/
def innerEnvelope (query : JVal) (opts : List (String × JVal)) : List (String × JVal) :=
  dictUpdate [("query", query)] opts

/-- The outer request envelope of `read` (lines 123-129): slot `q<i>` maps to
the inner envelope of the i-th query. -/
def readEnvelopeObj (queries : List JVal) (opts : List (String × JVal)) : JVal :=
  .obj (queries.enum.map fun iq => (qKey iq.1, JVal.obj (innerEnvelope iq.2 opts)))

/-- The slot-extraction loop of `read` (lines 144-148), processing slots
`q<i>`, `q<i+1>`, ... with `k` slots left: look the slot up in the response
envelope, `_check` it, and read its `result` field. -/
def readSlots (lasturl : String) (resp : JVal) : Nat → Nat → Except MWError (List JVal)
  | _, 0 => .ok []
  | i, k + 1 =>
    match resp.lookup (qKey i) with
    | none => .error (.keyError (qKey i))
    | some inner =>
      match Session.check lasturl inner with
      | .error e => .error e
      | .ok _ =>
        match inner.lookup "result" with
        | none => .error (.keyError "result")
        | some r =>
          match readSlots lasturl resp (i + 1) k with
          | .error e => .error e
          | .ok rest => .ok (r :: rest)

/-- Response processing of `read` (lines 140-155): `_check` the outer
envelope, extract and `_check` every slot, and unwrap a single result
(`results[0]`, line 153) when exactly one query was submitted. -/
def readResponse (lasturl : String) (n : Nat) (resp : JVal) : Except MWError JVal :=
  match Session.check lasturl resp with
  | .error e => .error e
  | .ok outer =>
    match readSlots lasturl outer 0 n with
    | .error e => .error e
    | .ok results =>
      if n = 1 then
        match results with
        | r :: _ => .ok r
        | [] => .error .indexError
      else .ok (.arr results)

/-- `Session.read` (lines 106-155).  The URL building, JSON serialisation and
HTTP round trip (lines 131-140) are abstracted into `server`, a function from
the outer request envelope to the parsed response envelope. -/
def Session.read (sessionOptions : List (String × JVal)) (lasturl : String)
    (queries : List JVal) (options : List (String × JVal))
    (server : JVal → JVal) : Except MWError JVal :=
  readResponse lasturl queries.length
    (server (readEnvelopeObj queries (readOptions sessionOptions options)))

/-- How a run of the `results` generator ends. -/
inductive Outcome where
  | done
  | failed (e : MWError)
  | starved


/-- The pagination loop of `results` (lines 174-196), driven by a list of
scripted server responses (one per issued request).  Returns the issued
request envelopes, the yielded items, and how the run ended: `done` when the
server returned a falsy cursor, `failed e` when iteration raised `e`,
`starved` when the model ran out of scripted responses.  Mirrors the source
order: set `envelope['cursor']`, fetch, `_check`, read `result`, yield every
item, then read `cursor`. -/
def resultsAux (lasturl : String) :
    List (String × JVal) → JVal → List JVal →
    List (List (String × JVal)) × List JVal × Outcome
  | envelope, cursor, [] =>
    if truthy cursor then ([dictInsert envelope "cursor" cursor], [], .starved)
    else ([], [], .done)
  | envelope, cursor, resp :: rest =>
    if truthy cursor then
      match Session.check lasturl resp with
      | .error e => ([dictInsert envelope "cursor" cursor], [], .failed e)
      | .ok _ =>
        match resp.lookup "result" with
        | none =>
          ([dictInsert envelope "cursor" cursor], [], .failed (.keyError "result"))
        | some (.arr items) =>
          match resp.lookup "cursor" with
          | none =>
            ([dictInsert envelope "cursor" cursor], items, .failed (.keyError "cursor"))
          | some c2 =>
            let next := resultsAux lasturl (dictInsert envelope "cursor" cursor) c2 rest
            (dictInsert envelope "cursor" cursor :: next.1, items ++ next.2.1, next.2.2)
        | some _ => ([dictInsert envelope "cursor" cursor], [], .failed .typeError)
    else ([], [], .done)

/-- `Session.results` (lines 157-196): build the query envelope once and run
the cursor loop starting from the literal `True` cursor (line 174). -/
def Session.results (sessionOptions : List (String × JVal)) (lasturl : String)
    (query : JVal) (options : List (String × JVal)) (responses : List JVal) :
    List (List (String × JVal)) × List JVal × Outcome :=
  resultsAux lasturl (innerEnvelope query (readOptions sessionOptions options))
    (.bool true) responses

/-- The search-service option keys recognised by `search` (lines 207-210). -/
def searchKeys : List String :=
  ["domain", "type", "type_strict", "limit", "start", "escape", "mql_output"]

/-- Python `query.endswith('*')`. -/
def endsInStar (s : String) : Bool := s.toList.getLast? == some '*'

/-- Python `query[0:-1]`: the string without its last character. -/
def dropLastChar (s : String) : String := String.mk s.toList.dropLast

/-- The request parameters built by `search` (lines 207-216): merged options,
then either a `prefix` parameter (wildcard query, marker stripped) or a
`query` parameter. -/
def searchParams (sessionOptions : List (String × JVal)) (query : String)
    (options : List (String × JVal)) : List (String × JVal) :=
  let opts := Session.getopts sessionOptions searchKeys options
  if endsInStar query then dictInsert opts "prefix" (.str (dropLastChar query))
  else dictInsert opts "query" (.str query)

/-- `Session.search` (lines 199-222): build the parameters, fetch (abstracted
into `server`), `_check` the envelope and return its `result` field. -/
def Session.search (sessionOptions : List (String × JVal)) (lasturl : String)
    (query : String) (options : List (String × JVal))
    (server : List (String × JVal) → JVal) : Except MWError JVal :=
  match Session.check lasturl (server (searchParams sessionOptions query options)) with
  | .error e => .error e
  | .ok envelope =>
    match envelope.lookup "result" with
    | none => .error (.keyError "result")
    | some r => .ok r

/-- Rendering of an option value by the external `urllib.urlencode`; no claim
depends on this rendering, only on which keys are present. -/
def JVal.paramString : JVal → String
  | .null => "None"
  | .bool b => if b then "True" else "False"
  | .num n => toString n
  | .str s => s
  | .arr _ => ""
  | .obj _ => ""

/-- Abstraction of the external `urllib.urlencode`: the k=v pairs joined by
the & separator (percent-escaping belongs to the external library and no
claim depends on it). -/
def urlencode (opts : List (String × JVal)) : String :=
  String.intercalate "&" (opts.map fun kv => kv.1 ++ "=" ++ kv.2.paramString)

/-- `Session._transURL` (lines 383-388): base URL plus the encoded options,
if any. -/
def Session.transURL (host id service : String) (optionKeys : List String)
    (sessionOptions options : List (String × JVal)) : String :=
  let url := "http://" ++ host ++ service ++ id
  let opts := Session.getopts sessionOptions optionKeys options
  if opts.length > 0 then url ++ "?" ++ urlencode opts else url

/-- `Session.contentURL` (lines 252-257): the trans URL for the `DOWNLOAD`
service constant, with no options. -/
def Session.contentURL (host id : String) : Except MWError String :=
  match resolveServiceConstant "DOWNLOAD" with
  | none => .error (.nameError "DOWNLOAD")
  | some service => .ok (Session.transURL host id service [] [] [])

/-- `Session.blurbURL` (lines 259-269). -/
def Session.blurbURL (host id : String)
    (sessionOptions options : List (String × JVal)) : Except MWError String :=
  match resolveServiceConstant "BLURB" with
  | none => .error (.nameError "BLURB")
  | some service =>
    .ok (Session.transURL host id service ["maxlength", "break_paragraphs"]
      sessionOptions options)

/-- `Session.thumbnailURL` (lines 271-280): references the module global
`THUMBNAIL`, which `serviceConstants` does not define. -/
def Session.thumbnailURL (host id : String)
    (sessionOptions options : List (String × JVal)) : Except MWError String :=
  match resolveServiceConstant "THUMBNAIL" with
  | none => .error (.nameError "THUMBNAIL")
  | some service =>
    .ok (Session.transURL host id service ["maxwidth", "maxheight"]
      sessionOptions options)

/-- `Session._trans` (lines 364-370): on HTTP 200 return the body and the
content-type header; otherwise parse the body as a failure envelope and raise
`ServiceError`, or `InternalServiceError` (via `_parsejson`, lines 326-334)
when the body is not JSON.  `parse` is the `simplejson.loads` oracle; the
HTTP result is the `(status, contentType, body)` triple. -/
def Session.trans (parse : String → Option JVal) (url : String) (status : Nat)
    (contentType body : String) : Except MWError (String × String) :=
  if status = 200 then .ok (body, contentType)
  else
    match parse body with
    | some errobj => .error (.serviceError url errobj)
    | none => .error (.internalServiceError url body)

/-- `Session.download` (lines 225-235): `_trans` of `contentURL`. -/
def Session.download (parse : String → Option JVal) (host id : String)
    (status : Nat) (contentType body : String) : Except MWError (String × String) :=
  match Session.contentURL host id with
  | .error e => .error e
  | .ok url => Session.trans parse url status contentType body

/-- `Session.blurb` (lines 238-242): `_trans` of `blurbURL`. -/
def Session.blurb (parse : String → Option JVal) (host id : String)
    (sessionOptions options : List (String × JVal))
    (status : Nat) (contentType body : String) : Except MWError (String × String) :=
  match Session.blurbURL host id sessionOptions options with
  | .error e => .error e
  | .ok url => Session.trans parse url status contentType body

/-- `Session.thumbnail` (lines 244-249): `_trans` of `thumbnailURL`. -/
def Session.thumbnail (parse : String → Option JVal) (host id : String)
    (sessionOptions options : List (String × JVal))
    (status : Nat) (contentType body : String) : Except MWError (String × String) :=
  match Session.thumbnailURL host id sessionOptions options with
  | .error e => .error e
  | .ok url => Session.trans parse url status contentType body

/-- Python `url.partition('?')[0]`: the characters before the first `?`. -/
def beforeQuestionMark (s : String) : String :=
  String.mk (s.toList.takeWhile fun ch => ch ≠ '?')

/-- `ServiceError.__str__` (lines 415-418): the URL up to its first `?`, then
the code and message of the first entry of the `messages` array. -/
def ServiceError.toStr (url : String) (details : JVal) : Except MWError String :=
  match details.lookup "messages" with
  | none => .error (.keyError "messages")
  | some (.arr []) => .error .indexError
  | some (.arr (m :: _)) =>
    match m.lookup "code", m.lookup "message" with
    | some (.str c), some (.str t) =>
      .ok (beforeQuestionMark url ++ ": " ++ c ++ ": " ++ t)
    | _, _ => .error .typeError
  | some _ => .error .typeError

/-- A well-formed success page of the paginated read service: the items of
its `result` array and its continuation `cursor`. -/
structure Page where
  items : List JVal
  cursor : JVal


/-- The response envelope of a success page. -/
def pageResp (p : Page) : JVal :=
  .obj [("code", .str OK), ("result", .arr p.items), ("cursor", p.cursor)]

/-! ### Association-list lemmas -/

theorem alistLookup_eq_none_of_not_mem {α : Type} (d : List (String × α)) (k : String)
    (h : k ∉ d.map Prod.fst) : alistLookup d k = none := by
  induction d with
  | nil => rfl
  | cons hd tl ih =>
    obtain ⟨k1, v1⟩ := hd
    simp only [List.map_cons, List.mem_cons, not_or] at h
    simp only [alistLookup]
    rw [if_neg fun hh => h.1 hh.symm]
    exact ih h.2

theorem dictInsert_dictInsert (d : List (String × JVal)) (k : String) (a b : JVal) :
    dictInsert (dictInsert d k a) k b = dictInsert d k b := by
  induction d with
  | nil => simp [dictInsert]
  | cons hd tl ih =>
    obtain ⟨k1, v1⟩ := hd
    by_cases hk : k1 = k
    · simp [dictInsert, hk]
    · simp [dictInsert, hk, ih]

theorem alistLookup_dictInsert_self (d : List (String × JVal)) (k : String) (v : JVal) :
    alistLookup (dictInsert d k v) k = some v := by
  induction d with
  | nil => simp [dictInsert, alistLookup]
  | cons hd tl ih =>
    obtain ⟨k1, v1⟩ := hd
    by_cases hk : k1 = k
    · simp [dictInsert, hk, alistLookup]
    · simp [dictInsert, hk, alistLookup, ih]

theorem alistLookup_dictInsert_ne (d : List (String × JVal)) (k k2 : String) (v : JVal)
    (h : k2 ≠ k) : alistLookup (dictInsert d k v) k2 = alistLookup d k2 := by
  have hne : ¬(k = k2) := fun hh => h hh.symm
  induction d with
  | nil =>
    simp only [dictInsert, alistLookup]
    rw [if_neg hne]
  | cons hd tl ih =>
    obtain ⟨k1, v1⟩ := hd
    by_cases hk : k1 = k
    · subst hk
      simp only [dictInsert, if_pos rfl, alistLookup]
      rw [if_neg hne, if_neg hne]
    · simp only [dictInsert, if_neg hk, alistLookup]
      by_cases hk2 : k1 = k2
      · rw [if_pos hk2, if_pos hk2]
      · rw [if_neg hk2, if_neg hk2]
        exact ih

theorem mem_keys_dictInsert (d : List (String × JVal)) (k a : String) (v : JVal) :
    a ∈ (dictInsert d k v).map Prod.fst ↔ a ∈ d.map Prod.fst ∨ a = k := by
  induction d with
  | nil => simp [dictInsert]
  | cons hd tl ih =>
    obtain ⟨k1, v1⟩ := hd
    by_cases hk : k1 = k
    · subst hk
      rw [show dictInsert ((k1, v1) :: tl) k1 v = (k1, v) :: tl by
        simp [dictInsert]]
      simp only [List.map_cons, List.mem_cons]
      tauto
    · simp only [dictInsert, if_neg hk, List.map_cons, List.mem_cons, ih]
      tauto

theorem dictInsert_keys_nodup (d : List (String × JVal)) (k : String) (v : JVal)
    (h : (d.map Prod.fst).Nodup) : ((dictInsert d k v).map Prod.fst).Nodup := by
  induction d with
  | nil => simp [dictInsert]
  | cons hd tl ih =>
    obtain ⟨k1, v1⟩ := hd
    simp only [List.map_cons, List.nodup_cons] at h
    by_cases hk : k1 = k
    · subst hk
      simpa [dictInsert, List.nodup_cons] using h
    · simp only [dictInsert, if_neg hk, List.map_cons, List.nodup_cons]
      refine ⟨fun hmem => ?_, ih h.2⟩
      rcases (mem_keys_dictInsert tl k k1 v).mp hmem with hin | heq
      · exact h.1 hin
      · exact hk heq

theorem alistLookup_dictUpdate_of_not_mem (u : List (String × JVal)) :
    ∀ (d : List (String × JVal)) (k : String), alistLookup u k = none →
      alistLookup (dictUpdate d u) k = alistLookup d k := by
  induction u with
  | nil => intro d k _; rfl
  | cons hd tl ih =>
    intro d k hu
    obtain ⟨k1, v1⟩ := hd
    simp only [alistLookup] at hu
    by_cases hk : k1 = k
    · simp [hk] at hu
    · rw [if_neg hk] at hu
      show alistLookup (dictUpdate (dictInsert d k1 v1) tl) k = _
      rw [ih (dictInsert d k1 v1) k hu,
        alistLookup_dictInsert_ne _ _ _ _ fun hh => hk hh.symm]

theorem alistLookup_dictUpdate (u : List (String × JVal)) :
    ∀ (d : List (String × JVal)) (k : String), (u.map Prod.fst).Nodup →
      alistLookup (dictUpdate d u) k = (alistLookup u k <|> alistLookup d k) := by
  induction u with
  | nil => intro d k _; rfl
  | cons hd tl ih =>
    intro d k hnodup
    obtain ⟨k1, v1⟩ := hd
    simp only [List.map_cons, List.nodup_cons] at hnodup
    show alistLookup (dictUpdate (dictInsert d k1 v1) tl) k = _
    by_cases hk : k1 = k
    · subst hk
      have htl : alistLookup tl k1 = none :=
        alistLookup_eq_none_of_not_mem tl k1 hnodup.1
      rw [alistLookup_dictUpdate_of_not_mem tl _ _ htl, alistLookup_dictInsert_self]
      simp [alistLookup]
    · rw [ih (dictInsert d k1 v1) k hnodup.2,
        alistLookup_dictInsert_ne _ _ _ _ fun hh => hk hh.symm]
      simp only [alistLookup, if_neg hk]

theorem dictUpdate_keys_nodup (u : List (String × JVal)) :
    ∀ (d : List (String × JVal)), (d.map Prod.fst).Nodup →
      ((dictUpdate d u).map Prod.fst).Nodup := by
  induction u with
  | nil => intro d h; exact h
  | cons hd tl ih =>
    intro d h
    exact ih (dictInsert d hd.1 hd.2) (dictInsert_keys_nodup d hd.1 hd.2 h)

/-! ### Lemmas about `Session._getopts` -/

theorem keys_sessionCopy_sublist (sess : List (String × JVal)) (keys : List String) :
    ((keys.filterMap fun k2 => (alistLookup sess k2).map fun v => (k2, v)).map
      Prod.fst).Sublist keys := by
  induction keys with
  | nil => simp
  | cons hd tl ih =>
    simp only [List.filterMap_cons]
    cases alistLookup sess hd with
    | none => exact ih.cons hd
    | some v => simpa using ih.cons₂ hd

theorem alistLookup_sessionCopy_mem (sess : List (String × JVal)) (keys : List String)
    (k : String) (hk : k ∈ keys) :
    alistLookup (keys.filterMap fun k2 => (alistLookup sess k2).map fun v => (k2, v)) k =
      alistLookup sess k := by
  induction keys with
  | nil => cases hk
  | cons hd tl ih =>
    simp only [List.filterMap_cons]
    cases hsess : alistLookup sess hd with
    | none =>
      simp only [Option.map_none']
      rcases List.mem_cons.mp hk with heq | htl
      · subst heq
        by_cases hmem : k ∈ tl
        · exact ih hmem
        · rw [alistLookup_eq_none_of_not_mem _ _ fun hin =>
            hmem ((keys_sessionCopy_sublist sess tl).subset hin), hsess]
      · exact ih htl
    | some v =>
      simp only [Option.map_some']
      by_cases hhd : hd = k
      · subst hhd
        simp [alistLookup, hsess]
      · simp only [alistLookup, if_neg hhd]
        rcases List.mem_cons.mp hk with heq | htl
        · exact absurd heq.symm hhd
        · exact ih htl

theorem alistLookup_sessionCopy_not_mem (sess : List (String × JVal)) (keys : List String)
    (k : String) (hk : k ∉ keys) :
    alistLookup (keys.filterMap fun k2 => (alistLookup sess k2).map fun v => (k2, v)) k =
      none := by
  refine alistLookup_eq_none_of_not_mem _ _ fun hin => ?_
  exact hk (List.Sublist.mem hin (keys_sessionCopy_sublist sess keys))

theorem alistLookup_getopts_mem (sess : List (String × JVal)) (keys : List String)
    (locOpts : List (String × JVal)) (k : String) (hk : k ∈ keys)
    (hnodup : (locOpts.map Prod.fst).Nodup) :
    alistLookup (Session.getopts sess keys locOpts) k =
      (alistLookup locOpts k <|> alistLookup sess k) := by
  unfold Session.getopts
  rw [alistLookup_dictUpdate locOpts _ k hnodup, alistLookup_sessionCopy_mem sess keys k hk]

theorem alistLookup_getopts_not_mem (sess : List (String × JVal)) (keys : List String)
    (locOpts : List (String × JVal)) (k : String) (hk : k ∉ keys)
    (hloc : alistLookup locOpts k = none) :
    alistLookup (Session.getopts sess keys locOpts) k = none := by
  unfold Session.getopts
  rw [alistLookup_dictUpdate_of_not_mem locOpts _ k hloc,
    alistLookup_sessionCopy_not_mem sess keys k hk]

theorem getopts_keys_nodup (sess : List (String × JVal)) (keys : List String)
    (locOpts : List (String × JVal)) (hkeys : keys.Nodup) :
    ((Session.getopts sess keys locOpts).map Prod.fst).Nodup :=
  dictUpdate_keys_nodup locOpts _
    ((keys_sessionCopy_sublist sess keys).nodup hkeys)

/-! ### Pagination lemmas for `Session.results` -/

theorem resultsAux_falsy (lasturl : String) (env : List (String × JVal)) (cursor : JVal)
    (responses : List JVal) (h : truthy cursor = false) :
    resultsAux lasturl env cursor responses = ([], [], .done) := by
  cases responses <;> simp [resultsAux, h]

theorem check_pageResp (lasturl : String) (p : Page) :
    Session.check lasturl (pageResp p) = .ok (pageResp p) := rfl

theorem pageResp_lookup_result (p : Page) :
    (pageResp p).lookup "result" = some (.arr p.items) := rfl

theorem pageResp_lookup_cursor (p : Page) :
    (pageResp p).lookup "cursor" = some p.cursor := rfl

theorem resultsAux_pages (lasturl : String) (extra : List JVal) (plast : Page)
    (hlast : truthy plast.cursor = false) :
    ∀ (ps : List Page) (env : List (String × JVal)) (cursor : JVal),
      truthy cursor = true → (∀ p ∈ ps, truthy p.cursor = true) →
      resultsAux lasturl env cursor ((ps ++ [plast]).map pageResp ++ extra) =
        ((cursor :: ps.map Page.cursor).map fun c => dictInsert env "cursor" c,
         ((ps ++ [plast]).map Page.items).flatten, .done) := by
  intro ps
  induction ps with
  | nil =>
    intro env cursor hc _
    simp only [List.nil_append, List.map_cons, List.map_nil, List.cons_append,
      List.nil_append]
    simp only [resultsAux, hc, if_true, check_pageResp, pageResp_lookup_result,
      pageResp_lookup_cursor]
    rw [resultsAux_falsy lasturl _ _ extra hlast]
    simp
  | cons p rest ih =>
    intro env cursor hc hmid
    have hp : truthy p.cursor = true := hmid p (List.mem_cons_self p rest)
    have hrest : ∀ q ∈ rest, truthy q.cursor = true := fun q hq =>
      hmid q (List.mem_cons_of_mem p hq)
    simp only [List.cons_append, List.map_cons]
    simp only [resultsAux, hc, if_true, check_pageResp, pageResp_lookup_result,
      pageResp_lookup_cursor]
    rw [ih (dictInsert env "cursor" cursor) p.cursor hp hrest]
    have hcollapse : ∀ (l : List JVal),
        (l.map fun c => dictInsert (dictInsert env "cursor" cursor) "cursor" c) =
          l.map fun c => dictInsert env "cursor" c := fun l =>
      List.map_congr_left fun c _ => dictInsert_dictInsert env "cursor" cursor c
    simp [hcollapse]

/-! ### Lemmas about `Session._check` -/

theorem check_ok_of_code_ok (lasturl : String) (v : JVal)
    (h : v.lookup "code" = some (.str OK)) : Session.check lasturl v = .ok v := by
  simp [Session.check, h, isOK]

theorem check_error_of_not_ok (lasturl : String) (v c : JVal)
    (h : v.lookup "code" = some c) (hbad : isOK c = false) :
    Session.check lasturl v = .error (.serviceError lasturl v) := by
  simp [Session.check, h, hbad]

/-- C1: for every query body and options, a run of the `results` generator
against scripted success pages (every page before the last carrying a truthy
cursor, the last a falsy one) issues exactly one request per page — each
request being the same query envelope with only its `cursor` field swapped:
the boolean `true` cursor first, then the cursor returned by the previous
page — yields exactly the items of each page's `result` array in
server-returned order, and ends `done` at the falsy cursor, consuming no
further scripted response. -/
theorem results_paginates_until_falsy_cursor
    (sessionOptions : List (String × JVal)) (lasturl : String) (query : JVal)
    (options : List (String × JVal)) (ps : List Page) (plast : Page)
    (extra : List JVal)
    (hmid : ∀ p ∈ ps, truthy p.cursor = true)
    (hlast : truthy plast.cursor = false) :
    Session.results sessionOptions lasturl query options
        ((ps ++ [plast]).map pageResp ++ extra) =
      ((JVal.bool true :: ps.map Page.cursor).map fun c =>
          dictInsert (innerEnvelope query (readOptions sessionOptions options)) "cursor" c,
       ((ps ++ [plast]).map Page.items).flatten, .done) := by
  unfold Session.results
  exact resultsAux_pages lasturl extra plast hlast ps _ (.bool true) rfl hmid

/-- Witness for C1: a server returning pages `[a, b]` (cursor `"tok"`) and
`[c]` (cursor `false`); the consumer observes `a, b, c`, the two issued
requests carry cursors `true` and `"tok"`, and the run is `done`. -/
theorem results_paginates_until_falsy_cursor_witness :
    ((∀ p ∈ [Page.mk [JVal.str "a", JVal.str "b"] (JVal.str "tok")],
        truthy p.cursor = true) ∧
      truthy (Page.mk [JVal.str "c"] (JVal.bool false)).cursor = false) ∧
    Session.results [] "u" (JVal.str "q") []
        (([Page.mk [JVal.str "a", JVal.str "b"] (JVal.str "tok")] ++
            [Page.mk [JVal.str "c"] (JVal.bool false)]).map pageResp ++ []) =
      ((JVal.bool true ::
          [Page.mk [JVal.str "a", JVal.str "b"] (JVal.str "tok")].map Page.cursor).map
            fun c => dictInsert (innerEnvelope (JVal.str "q") (readOptions [] []))
              "cursor" c,
       (([Page.mk [JVal.str "a", JVal.str "b"] (JVal.str "tok")] ++
           [Page.mk [JVal.str "c"] (JVal.bool false)]).map Page.items).flatten,
       .done) :=
  ⟨⟨by intro p hp; simp only [List.mem_singleton] at hp; subst hp; rfl, rfl⟩,
    results_paginates_until_falsy_cursor [] "u" (JVal.str "q") []
      [Page.mk [JVal.str "a", JVal.str "b"] (JVal.str "tok")]
      (Page.mk [JVal.str "c"] (JVal.bool false)) []
      (by intro p hp; simp only [List.mem_singleton] at hp; subst hp; rfl) rfl⟩

/-! ### Lemmas about the slot loop of `Session.read` -/

theorem readSlots_ok (lasturl : String) (resp : JVal) (inner r : Nat → JVal) :
    ∀ (k i : Nat),
      (∀ j, j < k → resp.lookup (qKey (i + j)) = some (inner (i + j))) →
      (∀ j, j < k → (inner (i + j)).lookup "code" = some (.str OK)) →
      (∀ j, j < k → (inner (i + j)).lookup "result" = some (r (i + j))) →
      readSlots lasturl resp i k = .ok ((List.range k).map fun j => r (i + j)) := by
  intro k
  induction k with
  | zero => intro i _ _ _; rfl
  | succ k ih =>
    intro i hq hc hr
    have h0q := hq 0 k.succ_pos
    have h0c := hc 0 k.succ_pos
    have h0r := hr 0 k.succ_pos
    rw [Nat.add_zero] at h0q h0c h0r
    have hrec := ih (i + 1)
      (fun j hj => by
        have := hq (j + 1) (Nat.succ_lt_succ hj)
        rwa [show i + (j + 1) = i + 1 + j by omega] at this)
      (fun j hj => by
        have := hc (j + 1) (Nat.succ_lt_succ hj)
        rwa [show i + (j + 1) = i + 1 + j by omega] at this)
      (fun j hj => by
        have := hr (j + 1) (Nat.succ_lt_succ hj)
        rwa [show i + (j + 1) = i + 1 + j by omega] at this)
    simp only [readSlots, h0q, check_ok_of_code_ok lasturl (inner i) h0c, h0r, hrec]
    rw [List.range_succ_eq_map]
    simp only [List.map_cons, List.map_map, Nat.add_zero, Function.comp_def]
    congr 1
    exact congrArg (List.cons (r i))
      (List.map_congr_left fun j _ => by congr 1; omega)

theorem readSlots_bad_slot (lasturl : String) (resp : JVal) (inner r : Nat → JVal)
    (c : Nat → String) (j : Nat) (hbadc : c j ≠ OK) :
    ∀ (k i : Nat), i ≤ j → j < i + k →
      (∀ m, i ≤ m → m ≤ j → resp.lookup (qKey m) = some (inner m)) →
      (∀ m, i ≤ m → m ≤ j → (inner m).lookup "code" = some (.str (c m))) →
      (∀ m, i ≤ m → m < j → c m = OK) →
      (∀ m, i ≤ m → m < j → (inner m).lookup "result" = some (r m)) →
      readSlots lasturl resp i k = .error (.serviceError lasturl (inner j)) := by
  intro k
  induction k with
  | zero => intro i hij hji _ _ _ _; omega
  | succ k ih =>
    intro i hij hji hq hc hok hr
    by_cases hieq : i = j
    · subst hieq
      have hbad : isOK (.str (c i)) = false := by simp [isOK, hbadc]
      simp only [readSlots, hq i le_rfl le_rfl,
        check_error_of_not_ok lasturl (inner i) _ (hc i le_rfl le_rfl) hbad]
    · have hilt : i < j := lt_of_le_of_ne hij hieq
      have hci : c i = OK := hok i le_rfl hilt
      have hcodei : (inner i).lookup "code" = some (.str OK) := by
        rw [hc i le_rfl (le_of_lt hilt), hci]
      simp only [readSlots, hq i le_rfl (le_of_lt hilt),
        check_ok_of_code_ok lasturl (inner i) hcodei, hr i le_rfl hilt]
      rw [ih (i + 1) hilt (by omega)
        (fun m hm hmj => hq m (by omega) hmj)
        (fun m hm hmj => hc m (by omega) hmj)
        (fun m hm hmj => hok m (by omega) hmj)
        (fun m hm hmj => hr m (by omega) hmj)]

/-- C2: when the outer envelope and every inner envelope carry the success
code, `read` returns the single slot's `result` unwrapped if exactly one
query was submitted, and otherwise the list of the `result` fields of slots
`q0 .. q(N-1)` in input order (slot values are reached by key lookup, so any
reordering of the response object's keys is immaterial). -/
theorem read_unwraps_single_and_orders_batch
    (sessionOptions : List (String × JVal)) (lasturl : String) (queries : List JVal)
    (options : List (String × JVal)) (server : JVal → JVal) (resp : JVal)
    (inner r : Nat → JVal)
    (hserver : server (readEnvelopeObj queries (readOptions sessionOptions options)) =
      resp)
    (houter : resp.lookup "code" = some (.str OK))
    (hslot : ∀ i, i < queries.length → resp.lookup (qKey i) = some (inner i))
    (hcode : ∀ i, i < queries.length → (inner i).lookup "code" = some (.str OK))
    (hres : ∀ i, i < queries.length → (inner i).lookup "result" = some (r i)) :
    Session.read sessionOptions lasturl queries options server =
      .ok (if queries.length = 1 then r 0
        else .arr ((List.range queries.length).map r)) := by
  unfold Session.read
  rw [hserver]
  unfold readResponse
  have hslots := readSlots_ok lasturl resp inner r queries.length 0
    (fun j hj => by simpa using hslot j hj)
    (fun j hj => by simpa using hcode j hj)
    (fun j hj => by simpa using hres j hj)
  simp only [Nat.zero_add] at hslots
  simp only [check_ok_of_code_ok lasturl resp houter, hslots]
  by_cases hn : queries.length = 1
  · rw [hn]
    rfl
  · rw [if_neg hn, if_neg hn]

/-- Witness for C2, single-query case: one query, one successful slot; the
returned value is the slot's `result`, not a one-element list. -/
theorem read_unwraps_single_and_orders_batch_witness :
    Session.read [] "u" [JVal.null] []
        (fun _ => .obj [("code", .str OK),
          ("q0", .obj [("code", .str OK), ("result", .str "R")])]) =
      .ok (.str "R") :=
  read_unwraps_single_and_orders_batch [] "u" [JVal.null] []
    (fun _ => .obj [("code", .str OK),
      ("q0", .obj [("code", .str OK), ("result", .str "R")])])
    (.obj [("code", .str OK), ("q0", .obj [("code", .str OK), ("result", .str "R")])])
    (fun _ => .obj [("code", .str OK), ("result", .str "R")]) (fun _ => .str "R")
    rfl rfl
    (fun i hi => match i, hi with | 0, _ => rfl)
    (fun i hi => match i, hi with | 0, _ => rfl)
    (fun i hi => match i, hi with | 0, _ => rfl)

/-- C3: if the code of any inner envelope of a (successful-outer) read
response differs from the success constant, `read` raises `ServiceError` —
the one identifying the first failing slot — and returns no result for any
query of the batch. -/
theorem read_raises_on_failing_inner
    (sessionOptions : List (String × JVal)) (lasturl : String) (queries : List JVal)
    (options : List (String × JVal)) (server : JVal → JVal) (resp : JVal)
    (inner r : Nat → JVal) (c : Nat → String)
    (hserver : server (readEnvelopeObj queries (readOptions sessionOptions options)) =
      resp)
    (houter : resp.lookup "code" = some (.str OK))
    (hslot : ∀ i, i < queries.length → resp.lookup (qKey i) = some (inner i))
    (hcode : ∀ i, i < queries.length → (inner i).lookup "code" = some (.str (c i)))
    (hres : ∀ i, i < queries.length → c i = OK →
      (inner i).lookup "result" = some (r i))
    (hbad : ∃ i, i < queries.length ∧ c i ≠ OK) :
    ∃ d, Session.read sessionOptions lasturl queries options server =
      .error (.serviceError lasturl d) := by
  classical
  have hj : Nat.find hbad < queries.length ∧ c (Nat.find hbad) ≠ OK :=
    Nat.find_spec hbad
  have hokm : ∀ m, m < Nat.find hbad → c m = OK := by
    intro m hm
    have hmn : m < queries.length := lt_trans hm hj.1
    by_contra hne
    exact Nat.find_min hbad hm ⟨hmn, hne⟩
  refine ⟨inner (Nat.find hbad), ?_⟩
  unfold Session.read
  rw [hserver]
  unfold readResponse
  have hslots := readSlots_bad_slot lasturl resp inner r c (Nat.find hbad) hj.2
    queries.length 0 (Nat.zero_le _) (by omega)
    (fun m _ hmj => hslot m (by omega))
    (fun m _ hmj => hcode m (by omega))
    (fun m _ hmj => hokm m hmj)
    (fun m _ hmj => hres m (by omega) (hokm m hmj))
  simp only [check_ok_of_code_ok lasturl resp houter, hslots]

/-- Witness for C3: two queries, slot `q0` succeeds, slot `q1` carries an
error code; `read` raises a ServiceError. -/
theorem read_raises_on_failing_inner_witness :
    ∃ d, Session.read [] "u" [JVal.null, JVal.null] []
        (fun _ => .obj [("code", .str OK),
          ("q0", .obj [("code", .str OK), ("result", .str "A")]),
          ("q1", .obj [("code", .str "/api/status/error")])]) =
      .error (.serviceError "u" d) :=
  read_raises_on_failing_inner [] "u" [JVal.null, JVal.null] []
    (fun _ => .obj [("code", .str OK),
      ("q0", .obj [("code", .str OK), ("result", .str "A")]),
      ("q1", .obj [("code", .str "/api/status/error")])])
    (.obj [("code", .str OK),
      ("q0", .obj [("code", .str OK), ("result", .str "A")]),
      ("q1", .obj [("code", .str "/api/status/error")])])
    (fun i => if i = 0 then .obj [("code", .str OK), ("result", .str "A")]
      else .obj [("code", .str "/api/status/error")])
    (fun _ => .str "A")
    (fun i => if i = 0 then OK else "/api/status/error")
    rfl rfl
    (fun i hi => match i, hi with
      | 0, _ => rfl
      | 1, _ => rfl
      | n + 2, hi => absurd hi (by simp only [List.length_cons, List.length_nil]; omega))
    (fun i hi => match i, hi with
      | 0, _ => rfl
      | 1, _ => rfl
      | n + 2, hi => absurd hi (by simp only [List.length_cons, List.length_nil]; omega))
    (fun i hi hok => match i, hi, hok with
      | 0, _, _ => rfl
      | 1, _, hok => absurd hok (by decide)
      | n + 2, hi, _ => absurd hi (by simp only [List.length_cons, List.length_nil]; omega))
    ⟨1, by decide, by decide⟩

/-- C10: a zero-query `read` whose outer envelope carries the success code
returns the empty list: no error is raised and the single-result unwrapping
does not fire. -/
theorem read_no_queries_returns_empty_list
    (sessionOptions : List (String × JVal)) (lasturl : String)
    (options : List (String × JVal)) (server : JVal → JVal)
    (houter : (server (readEnvelopeObj [] (readOptions sessionOptions options))).lookup
      "code" = some (.str OK)) :
    Session.read sessionOptions lasturl [] options server = .ok (.arr []) := by
  unfold Session.read readResponse
  simp only [check_ok_of_code_ok _ _ houter]
  rfl

/-- Witness for C10: a server answering the empty batch with a bare success
envelope. -/
theorem read_no_queries_returns_empty_list_witness :
    Session.read [] "u" [] [] (fun _ => .obj [("code", .str OK)]) = .ok (.arr []) :=
  read_no_queries_returns_empty_list [] "u" [] (fun _ => .obj [("code", .str OK)]) rfl

/-- C4: whenever an envelope checked by a JSON-endpoint operation carries a
code other than the success constant, `_check` raises
`ServiceError(lasturl, envelope)`; consequently `read` and `search` return
that error instead of any `result`, and the `results` generator yields no
item of that page and stops with the error. -/
theorem check_gates_every_result_access
    (lasturl : String) (resp c : JVal)
    (hc : resp.lookup "code" = some c) (hbad : isOK c = false) :
    Session.check lasturl resp = .error (.serviceError lasturl resp)
    ∧ (∀ (sessionOptions : List (String × JVal)) (queries : List JVal)
        (options : List (String × JVal)) (server : JVal → JVal),
        server (readEnvelopeObj queries (readOptions sessionOptions options)) = resp →
        Session.read sessionOptions lasturl queries options server =
          .error (.serviceError lasturl resp))
    ∧ (∀ (sessionOptions : List (String × JVal)) (query : String)
        (options : List (String × JVal)) (server : List (String × JVal) → JVal),
        server (searchParams sessionOptions query options) = resp →
        Session.search sessionOptions lasturl query options server =
          .error (.serviceError lasturl resp))
    ∧ (∀ (envelope : List (String × JVal)) (cursor : JVal) (rest : List JVal),
        truthy cursor = true →
        resultsAux lasturl envelope cursor (resp :: rest) =
          ([dictInsert envelope "cursor" cursor], [],
            .failed (.serviceError lasturl resp))) := by
  have hchk := check_error_of_not_ok lasturl resp c hc hbad
  refine ⟨hchk, ?_, ?_, ?_⟩
  · intro sess queries options server hs
    unfold Session.read readResponse
    rw [hs]
    simp only [hchk]
  · intro sess query options server hs
    unfold Session.search
    rw [hs]
    simp only [hchk]
  · intro envelope cursor rest hcur
    simp only [resultsAux, hcur, if_true, hchk]

/-- Witness for C4: `_check` on an envelope with a failure code raises the
ServiceError wrapping that envelope. -/
theorem check_gates_every_result_access_witness :
    Session.check "u" (.obj [("code", .str "/api/status/error")]) =
      .error (.serviceError "u" (.obj [("code", .str "/api/status/error")])) :=
  (check_gates_every_result_access "u" (.obj [("code", .str "/api/status/error")])
    (.str "/api/status/error") rfl rfl).1

/-! ### Option-merging lemmas for C9 -/

theorem alistLookup_innerEnvelope (q : JVal) (opts : List (String × JVal)) (k : String)
    (hk : k ≠ "query") (hnodup : (opts.map Prod.fst).Nodup) :
    alistLookup (innerEnvelope q opts) k = alistLookup opts k := by
  unfold innerEnvelope
  rw [alistLookup_dictUpdate opts _ k hnodup]
  cases h : alistLookup opts k with
  | some v => rfl
  | none =>
    rw [Option.none_orElse]
    simp only [alistLookup]
    rw [if_neg fun hh => hk hh.symm]

/-- C9: for every recognised read-option key, each inner envelope of a read
batch maps that key to the per-call value when one is passed, else to the
session default when present, else omits it; and the merged options are the
same in every inner envelope of the batch (only the `query` field differs).
The per-call options are Python keyword arguments, hence their keys contain
no duplicates. -/
theorem read_merges_options_uniformly
    (sessionOptions options : List (String × JVal)) (k : String) (q q2 : JVal)
    (hk : k ∈ recognizedReadKeys)
    (hnodup : (options.map Prod.fst).Nodup) :
    alistLookup (innerEnvelope q (readOptions sessionOptions options)) k =
      (alistLookup options k <|> alistLookup sessionOptions k)
    ∧ (∀ k2, k2 ≠ "query" →
        alistLookup (innerEnvelope q (readOptions sessionOptions options)) k2 =
          alistLookup (innerEnvelope q2 (readOptions sessionOptions options)) k2) := by
  have hkq : k ≠ "query" := by fin_cases hk <;> decide
  have hnod : ((readOptions sessionOptions options).map Prod.fst).Nodup :=
    getopts_keys_nodup sessionOptions recognizedReadKeys options (by decide)
  constructor
  · rw [alistLookup_innerEnvelope q _ k hkq hnod]
    exact alistLookup_getopts_mem sessionOptions recognizedReadKeys options k hk hnodup
  · intro k2 hk2
    rw [alistLookup_innerEnvelope q _ k2 hk2 hnod,
      alistLookup_innerEnvelope q2 _ k2 hk2 hnod]

/-- Witness for C9: a per-call `lang` overrides the session default inside
the inner envelope. -/
theorem read_merges_options_uniformly_witness :
    alistLookup (innerEnvelope JVal.null
        (readOptions [("lang", JVal.str "/lang/en")] [("lang", JVal.str "/lang/fr")]))
      "lang" =
      (alistLookup [("lang", JVal.str "/lang/fr")] "lang" <|>
        alistLookup [("lang", JVal.str "/lang/en")] "lang") :=
  (read_merges_options_uniformly [("lang", JVal.str "/lang/en")]
    [("lang", JVal.str "/lang/fr")] "lang" JVal.null JVal.null
    (by decide) (by decide)).1

/-- C6 counterexample: `search("foo", prefix="bar")` is a legal call — the
keyword does not collide with any parameter of `search` and `_getopts`
passes every per-call option through — the query string does not end in the
wildcard marker, and yet the request parameters carry a `prefix` parameter,
contradicting the claim's non-wildcard half. -/
theorem searchParams_keeps_caller_prefix_option :
    endsInStar "foo" = false ∧
    alistLookup (searchParams [] "foo" [("prefix", JVal.str "bar")]) "prefix" =
      some (JVal.str "bar") :=
  ⟨rfl, rfl⟩

/-- C6 amended: provided the per-call options pass no explicit `prefix` key
(and no `query` key — which Python rejects anyway, since it would collide
with the positional `query` parameter): a wildcard query sends a `prefix`
parameter equal to the query with the trailing `*` removed and no `query`
parameter; a non-wildcard query sends a `query` parameter equal to the query
string and no `prefix` parameter. -/
theorem searchParams_wildcard_vs_exact
    (sessionOptions options : List (String × JVal)) (query : String)
    (hq : alistLookup options "query" = none)
    (hp : alistLookup options "prefix" = none) :
    (endsInStar query = true →
      alistLookup (searchParams sessionOptions query options) "prefix" =
        some (.str (dropLastChar query)) ∧
      alistLookup (searchParams sessionOptions query options) "query" = none)
    ∧ (endsInStar query = false →
      alistLookup (searchParams sessionOptions query options) "query" =
        some (.str query) ∧
      alistLookup (searchParams sessionOptions query options) "prefix" = none) := by
  have hoq : alistLookup (Session.getopts sessionOptions searchKeys options) "query" =
      none := alistLookup_getopts_not_mem sessionOptions searchKeys options _
    (by decide) hq
  have hop : alistLookup (Session.getopts sessionOptions searchKeys options) "prefix" =
      none := alistLookup_getopts_not_mem sessionOptions searchKeys options _
    (by decide) hp
  constructor
  · intro hstar
    simp only [searchParams, hstar, if_true]
    exact ⟨alistLookup_dictInsert_self _ _ _,
      by rw [alistLookup_dictInsert_ne _ _ _ _ (by decide)]; exact hoq⟩
  · intro hstar
    simp only [searchParams, hstar, Bool.false_eq_true, if_false]
    exact ⟨alistLookup_dictInsert_self _ _ _,
      by rw [alistLookup_dictInsert_ne _ _ _ _ (by decide)]; exact hop⟩

/-- Witness for the amended C6: `search("foo*")` sends `prefix=foo` and no
exact-query parameter. -/
theorem searchParams_wildcard_vs_exact_witness :
    alistLookup (searchParams [] "foo*" []) "prefix" = some (JVal.str "foo") ∧
    alistLookup (searchParams [] "foo*" []) "query" = none :=
  (searchParams_wildcard_vs_exact [] [] "foo*" rfl rfl).1 rfl

/-- C8: `thumbnailURL`, and with it `thumbnail`, fails with a
name-resolution error on every input: the constant name `THUMBNAIL` it
references is not defined among the module's endpoint constants — the
declared constant is `THUMB`. -/
theorem thumbnailURL_raises_nameError
    (parse : String → Option JVal) (host id : String)
    (sessionOptions options : List (String × JVal)) (status : Nat)
    (contentType body : String) :
    Session.thumbnailURL host id sessionOptions options =
      .error (.nameError "THUMBNAIL")
    ∧ Session.thumbnail parse host id sessionOptions options status contentType body =
      .error (.nameError "THUMBNAIL")
    ∧ resolveServiceConstant "THUMBNAIL" = none
    ∧ resolveServiceConstant "THUMB" = some "/api/trans/image_thumb" :=
  ⟨rfl, rfl, rfl, rfl⟩

/-- C5 counterexample: on an HTTP-200 interaction `thumbnail` does not
return the body/content-type pair as the claim states — the undefined
`THUMBNAIL` constant makes it fail with a name-resolution error before any
HTTP handling. -/
theorem thumbnail_200_does_not_return_body :
    Session.thumbnail (fun _ => none) "h" "/id" [] [] 200 "image/png" "DATA" =
      .error (.nameError "THUMBNAIL")
    ∧ Session.thumbnail (fun _ => none) "h" "/id" [] [] 200 "image/png" "DATA" ≠
      .ok ("DATA", "image/png") :=
  ⟨rfl, fun h => Except.noConfusion h⟩

/-- C5 amended: restricted to `download` and `blurb` (the `thumbnail` half
of the claim fails, since the `THUMBNAIL` name error precedes any HTTP
handling): HTTP status 200 returns the body and the content-type header
unchanged; on any other status a JSON-parseable body raises `ServiceError`
carrying the request URL and the parsed envelope, and an unparseable body
raises `InternalServiceError` whose details wrap the raw body in the
synthetic envelope with code `Internal service error` and a single message
with code `Unparseable response`. -/
theorem download_blurb_http_result_handling :
    (∀ (parse : String → Option JVal) (host id : String) (status : Nat)
        (contentType body url : String),
      Session.contentURL host id = .ok url →
        (status = 200 →
          Session.download parse host id status contentType body =
            .ok (body, contentType))
        ∧ (∀ e, status ≠ 200 → parse body = some e →
          Session.download parse host id status contentType body =
            .error (.serviceError url e))
        ∧ (status ≠ 200 → parse body = none →
          Session.download parse host id status contentType body =
            .error (.internalServiceError url body)))
    ∧ (∀ (parse : String → Option JVal) (host id : String)
        (sessionOptions options : List (String × JVal)) (status : Nat)
        (contentType body url : String),
      Session.blurbURL host id sessionOptions options = .ok url →
        (status = 200 →
          Session.blurb parse host id sessionOptions options status contentType body =
            .ok (body, contentType))
        ∧ (∀ e, status ≠ 200 → parse body = some e →
          Session.blurb parse host id sessionOptions options status contentType body =
            .error (.serviceError url e))
        ∧ (status ≠ 200 → parse body = none →
          Session.blurb parse host id sessionOptions options status contentType body =
            .error (.internalServiceError url body)))
    ∧ (∀ (url body : String),
        (MWError.internalServiceError url body).details =
          some (.obj [("code", .str "Internal service error"),
            ("messages", .arr [.obj [("code", .str "Unparseable response"),
              ("message", .str body)]])])) := by
  refine ⟨?_, ?_, fun url body => rfl⟩
  · intro parse host id status contentType body url hurl
    simp only [Session.download, hurl]
    refine ⟨fun h200 => ?_, fun e hst hp => ?_, fun hst hp => ?_⟩
    · simp only [Session.trans, if_pos h200]
    · simp only [Session.trans, if_neg hst, hp]
    · simp only [Session.trans, if_neg hst, hp]
  · intro parse host id sessionOptions options status contentType body url hurl
    simp only [Session.blurb, hurl]
    refine ⟨fun h200 => ?_, fun e hst hp => ?_, fun hst hp => ?_⟩
    · simp only [Session.trans, if_pos h200]
    · simp only [Session.trans, if_neg hst, hp]
    · simp only [Session.trans, if_neg hst, hp]

/-- Witness for the amended C5: `download` of an HTTP 404 whose body is not
JSON raises the internal variant carrying the raw body. -/
theorem download_blurb_http_result_handling_witness :
    Session.download (fun _ => none) "h" "/i" 404 "text/plain" "BROKEN" =
      .error (.internalServiceError "http://h/api/trans/raw/i" "BROKEN") :=
  (download_blurb_http_result_handling.1 (fun _ => none) "h" "/i" 404 "text/plain"
    "BROKEN" "http://h/api/trans/raw/i" rfl).2.2 (by decide) rfl

/-- C7: the string form of a ServiceError built from a URL and a failure
envelope with a non-empty `messages` array (whose first message carries
string `code` and `message` fields) is the URL truncated at its first `?` —
hence free of URL query parameters — followed by the first message's code
and text. -/
theorem serviceError_str_strips_params
    (url : String) (details m : JVal) (rest : List JVal) (c t : String)
    (hm : details.lookup "messages" = some (.arr (m :: rest)))
    (hc : m.lookup "code" = some (.str c))
    (ht : m.lookup "message" = some (.str t)) :
    ServiceError.toStr url details =
      .ok (beforeQuestionMark url ++ ": " ++ c ++ ": " ++ t)
    ∧ ∀ ch ∈ (beforeQuestionMark url).toList, ch ≠ '?' := by
  constructor
  · simp only [ServiceError.toStr, hm, hc, ht]
  · intro ch hch
    have hdec := List.mem_takeWhile_imp hch
    exact of_decide_eq_true hdec

/-- Witness for C7: a URL whose query string carries the payload; the
rendered message drops everything from the `?` on. -/
theorem serviceError_str_strips_params_witness :
    ServiceError.toStr "http://h/api/service/mqlread?queries=SECRET"
        (.obj [("code", .str "/api/status/error"),
          ("messages", .arr [.obj [("code", .str "/api/status/error/notfound"),
            ("message", .str "not found")]])]) =
      .ok "http://h/api/service/mqlread: /api/status/error/notfound: not found" :=
  (serviceError_str_strips_params "http://h/api/service/mqlread?queries=SECRET"
    (.obj [("code", .str "/api/status/error"),
      ("messages", .arr [.obj [("code", .str "/api/status/error/notfound"),
        ("message", .str "not found")]])])
    (.obj [("code", .str "/api/status/error/notfound"),
      ("message", .str "not found")])
    [] "/api/status/error/notfound" "not found" rfl rfl rfl).1
